import Mathlib

/-!
Verification of the experiment-code codec and configuration container of
`radnn` (`src/radnn/experiment/ml_experiment_config.py`), shallowly embedded
in Lean.  Python dictionaries are modelled as insertion-ordered association
lists, Python values as the inductive `PyVal`, and raised exceptions as an
`Except Err` result.
-/

deriving instance DecidableEq for Except

/-- A JSON-compatible Python value as used by the configuration container:
`None`, booleans, integers or strings. -/
inductive PyVal where
  | none
  | bool (b : Bool)
  | int (n : Int)
  | str (s : String)
deriving DecidableEq, Repr

/-- The failure kinds of the module.  The source raises generic Python
exceptions; each constructor records which kind of failure occurred
(`invalidIdentity` and `configNotFound` are the module's own messages, the
rest model the Python builtin exceptions the code can raise). -/
inductive Err where
  | invalidIdentity
  | typeMismatch
  | configNotFound
  | attributeError
  | keyError (key : String)
  | indexError
  | jsonError
  | malformedTimestamp
deriving DecidableEq, Repr

/-- Decimal digit test for a character, as used by Python `int()` parsing. -/
def isDigitChar (c : Char) : Bool :=
  c = '0' || c = '1' || c = '2' || c = '3' || c = '4' ||
  c = '5' || c = '6' || c = '7' || c = '8' || c = '9'

/-- Numeric value of a decimal digit character. -/
def digitVal (c : Char) : Nat := c.toNat - 48

/-- The decimal digit character for `d < 10`. -/
def digitChar (d : Nat) : Char := Char.ofNat (48 + d)

/-- Python whitespace characters stripped by `int()`. -/
def isPySpace (c : Char) : Bool :=
  c = ' ' || c = '\t' || c = '\n' || c = '\r' || c = '\x0b' || c = '\x0c'

/-- Strip leading and trailing whitespace from a character list
(Python `str.strip`). -/
def pyStrip (cs : List Char) : List Char :=
  ((cs.dropWhile isPySpace).reverse.dropWhile isPySpace).reverse

/-- Accumulate the decimal value of a digit run, allowing single underscores
between digits as Python `int()` does (`"1_0"` parses, `"1__0"`, `"1_"` do
not).  `acc` is the value of the digits already consumed. -/
def parseDigitsAux : List Char → Nat → Option Nat
  | [], acc => some acc
  | c :: rest, acc =>
    if c = '_' then
      match rest with
      | c2 :: rest2 =>
        if isDigitChar c2 then parseDigitsAux rest2 (acc * 10 + digitVal c2) else none
      | [] => none
    else if isDigitChar c then parseDigitsAux rest (acc * 10 + digitVal c) else none

/-- Python `int()` applied to a string, modelled on ASCII decimal input:
optional surrounding whitespace, optional sign, then a digit run (with
single-underscore separators).  Returns `none` where Python raises
`ValueError`. -/
def pyIntOfChars (cs : List Char) : Option Int :=
  match pyStrip cs with
  | [] => none
  | c :: rest =>
    if c = '-' then
      match rest with
      | c2 :: _ =>
        if isDigitChar c2 then (parseDigitsAux rest 0).map (fun m => -(m : Int)) else none
      | [] => none
    else if c = '+' then
      match rest with
      | c2 :: _ =>
        if isDigitChar c2 then (parseDigitsAux rest 0).map (fun m => (m : Int)) else none
      | [] => none
    else if isDigitChar c then (parseDigitsAux (c :: rest) 0).map (fun m => (m : Int)) else none

/-- Fueled helper for `natDigits`; the fuel only bounds the recursion depth
and `natDigits` always supplies enough of it. -/
def natDigitsAux : Nat → Nat → List Char
  | 0, _ => []
  | fuel + 1, n =>
    if n < 10 then [digitChar n]
    else natDigitsAux fuel (n / 10) ++ [digitChar (n % 10)]

/-- The decimal digits of a natural number, most significant first. -/
def natDigits (n : Nat) : List Char := natDigitsAux (n + 1) n

/-- Python `str()` of an integer: decimal digits with a leading `-` when
negative. -/
def intReprChars (i : Int) : List Char :=
  if i < 0 then '-' :: natDigits i.natAbs else natDigits i.toNat

/-- Python `"%02d" % i`: the decimal rendering left-padded with `0` to a
minimum width of two characters (the sign counts towards the width). -/
def format02chars (i : Int) : List Char :=
  let cs := intReprChars i
  if cs.length < 2 then '0' :: cs else cs

/-- String form of `format02chars`. -/
def format02 (i : Int) : String := String.mk (format02chars i)

/-- Python `str()` applied to a `PyVal` (used by f-string interpolation). -/
def pyStr : PyVal → String
  | PyVal.none => "None"
  | PyVal.bool b => if b then "True" else "False"
  | PyVal.int n => String.mk (intReprChars n)
  | PyVal.str s => s

/-- Python `int()` applied to a `PyVal`: integers pass through, booleans
coerce to 0/1, strings are parsed, `None` raises. -/
def pyInt : PyVal → Except Err Int
  | PyVal.int n => Except.ok n
  | PyVal.bool b => Except.ok (if b then 1 else 0)
  | PyVal.str s =>
    match pyIntOfChars s.toList with
    | some n => Except.ok n
    | Option.none => Except.error Err.typeMismatch
  | PyVal.none => Except.error Err.typeMismatch

/-- Interpret a `PyVal` as a number for Python `+`, when possible
(booleans act as 0/1). -/
def pyArith? : PyVal → Option Int
  | PyVal.int n => some n
  | PyVal.bool b => some (if b then 1 else 0)
  | _ => none

/-- Python `+` on values: string concatenation on two strings, integer
addition on numbers, `TypeError` otherwise (in particular `None + str`). -/
def pyAdd (a b : PyVal) : Except Err PyVal :=
  match a, b with
  | PyVal.str x, PyVal.str y => Except.ok (PyVal.str (x ++ y))
  | _, _ =>
    match pyArith? a, pyArith? b with
    | some x, some y => Except.ok (PyVal.int (x + y))
    | _, _ => Except.error Err.typeMismatch

/-- Python `str.split(".")`: split on every occurrence of `.`; the
accumulator holds the current segment reversed. -/
def splitOnDotAux : List Char → List Char → List (List Char)
  | [], acc => [acc.reverse]
  | c :: rest, acc =>
    if c = '.' then acc.reverse :: splitOnDotAux rest []
    else splitOnDotAux rest (c :: acc)

/-- Python `str.split(".")` on a character list. -/
def splitOnDot (cs : List Char) : List (List Char) := splitOnDotAux cs []

/-- The portion of a string before its first `.` (the whole string when it
has none). -/
def takeUntilDot (s : String) : String :=
  String.mk (s.toList.takeWhile (fun c => c != '.'))

/-- Python `re.split("_", s, maxsplit)`: split on `_` at most `k` times;
once the budget is exhausted the remainder is kept whole. -/
def splitUnderscoreAux : List Char → Nat → List Char → List (List Char)
  | [], _, acc => [acc.reverse]
  | c :: rest, k, acc =>
    if c = '_' then
      match k with
      | 0 => splitUnderscoreAux rest 0 (c :: acc)
      | k' + 1 => acc.reverse :: splitUnderscoreAux rest k' []
    else splitUnderscoreAux rest k (c :: acc)

/-- Python slice `s[a:b]` on a character list (total, clamped). -/
def pySliceChars (cs : List Char) (a b : Nat) : List Char := (cs.drop a).take (b - a)

/-- `os.path.split(p)[1]`: the part of the path after the last `/`. -/
def basenameChars (cs : List Char) : List Char :=
  (cs.reverse.takeWhile (fun c => c != '/')).reverse

/-- Index of the last `.` in a character list, if any. -/
def findLastDot : List Char → Option Nat
  | [] => Option.none
  | c :: rest =>
    match findLastDot rest with
    | some i => some (i + 1)
    | Option.none => if c = '.' then some 0 else Option.none

/-- The root part of `os.path.splitext` on a separator-free name: the
extension starts at the last dot provided some earlier character of the
name is not a dot (so purely-leading dots never start an extension). -/
def splitextStemChars (cs : List Char) : List Char :=
  match findLastDot cs with
  | Option.none => cs
  | some d => if (cs.take d).any (fun a => a != '.') then cs.take d else cs

/-- The stem of a filename: strip the directory, then the extension, as
`os.path.splitext(os.path.split(filename)[1])[0]` does. -/
def stemOf (filename : String) : List Char :=
  splitextStemChars (basenameChars filename.toList)

/-- A `datetime` value as produced by `datetime.fromisoformat`. -/
structure PyDateTime where
  year : Nat
  month : Nat
  day : Nat
  hour : Nat
  minute : Nat
  second : Nat
deriving DecidableEq, Repr

/-- Gregorian leap-year rule. -/
def isLeapYear (y : Nat) : Bool := (y % 4 == 0 && y % 100 != 0) || y % 400 == 0

/-- Number of days in a month of a given year. -/
def daysInMonth (y m : Nat) : Nat :=
  if m = 2 then (if isLeapYear y then 29 else 28)
  else if m = 4 ∨ m = 6 ∨ m = 9 ∨ m = 11 then 30
  else 31

/-- Model of `datetime.fromisoformat` on the compact timestamp shape
`YYYYMMDDTHH:MM:SS` that `experiment_code_and_timestamp` reassembles
(other ISO shapes the Python library would also accept are out of scope);
calendar validity is checked as the library does. -/
def fromisoformat (cs : List Char) : Except Err PyDateTime :=
  match cs with
  | [y1, y2, y3, y4, mo1, mo2, d1, d2, 'T', h1, h2, ':', mi1, mi2, ':', s1, s2] =>
    if isDigitChar y1 && isDigitChar y2 && isDigitChar y3 && isDigitChar y4 &&
       isDigitChar mo1 && isDigitChar mo2 && isDigitChar d1 && isDigitChar d2 &&
       isDigitChar h1 && isDigitChar h2 && isDigitChar mi1 && isDigitChar mi2 &&
       isDigitChar s1 && isDigitChar s2 then
      let y := digitVal y1 * 1000 + digitVal y2 * 100 + digitVal y3 * 10 + digitVal y4
      let mo := digitVal mo1 * 10 + digitVal mo2
      let dy := digitVal d1 * 10 + digitVal d2
      let hh := digitVal h1 * 10 + digitVal h2
      let mi := digitVal mi1 * 10 + digitVal mi2
      let ss := digitVal s1 * 10 + digitVal s2
      if 1 ≤ y ∧ 1 ≤ mo ∧ mo ≤ 12 ∧ 1 ≤ dy ∧ dy ≤ daysInMonth y mo ∧
         hh ≤ 23 ∧ mi ≤ 59 ∧ ss ≤ 59 then
        Except.ok ⟨y, mo, dy, hh, mi, ss⟩
      else Except.error Err.malformedTimestamp
    else Except.error Err.malformedTimestamp
  | _ => Except.error Err.malformedTimestamp

/-- Lookup in an insertion-ordered association list modelling a Python dict. -/
def mapGet? : List (String × PyVal) → String → Option PyVal
  | [], _ => Option.none
  | (k', v) :: rest, k => if k' = k then some v else mapGet? rest k

/-- `d[k] = v` on a Python dict: overwrite in place if the key exists,
append otherwise. -/
def mapSet : List (String × PyVal) → String → PyVal → List (String × PyVal)
  | [], k, v => [(k, v)]
  | (k', v') :: rest, k, v =>
    if k' = k then (k, v) :: rest else (k', v') :: mapSet rest k v

/-- Subscript read `d[k]` on a Python dict: `KeyError` when absent. -/
def dictGet (m : List (String × PyVal)) (k : String) : Except Err PyVal :=
  match mapGet? m k with
  | some v => Except.ok v
  | Option.none => Except.error (Err.keyError k)

/-- The loop `for sKey in config_dict.keys(): self[sKey] = config_dict[sKey]`:
copy every pair of `d` into `m` in order, with overwrite semantics. -/
def dictUpdate (m : List (String × PyVal)) (d : List (String × PyVal)) :
    List (String × PyVal) :=
  d.foldl (fun acc kv => mapSet acc kv.1 kv.2) m

/-- `get_experiment_code(config_dict)`: requires the two keys
`Experiment.BaseName` and `Experiment.Number` to be present, coerces the
number (and the optional fold number) with `int()`, stringifies the optional
variation, and assembles `{base}_{number:02d}[.{variation}][-{fold:02d}]`. -/
def get_experiment_code (config_dict : List (String × PyVal)) : Except Err String :=
  match mapGet? config_dict "Experiment.BaseName",
        mapGet? config_dict "Experiment.Number" with
  | some vBase, some vNum =>
    match pyInt vNum with
    | Except.error e => Except.error e
    | Except.ok nNumber =>
      let sVariation : Option String :=
        (mapGet? config_dict "Experiment.Variation").map pyStr
      match (match mapGet? config_dict "Experiment.FoldNumber" with
             | some v => (pyInt v).map some
             | Option.none => (Except.ok Option.none : Except Err (Option Int))) with
      | Except.error e => Except.error e
      | Except.ok nFoldNumber =>
        let sCode := pyStr vBase ++ "_" ++ format02 nNumber
        let sCode := match sVariation with
          | some sv => sCode ++ "." ++ sv
          | Option.none => sCode
        let sCode := match nFoldNumber with
          | some nf => sCode ++ "-" ++ format02 nf
          | Option.none => sCode
        Except.ok sCode
  | _, _ => Except.error Err.invalidIdentity

/-- `get_experiment_code_ex(base_name, number, variation, fold_number)`: the
canonical encoder over explicit arguments; `None` arguments mark the
optional parts as absent. -/
def get_experiment_code_ex (base_name : PyVal) (number : PyVal)
    (variation : PyVal) (fold_number : PyVal) : Except Err String :=
  if base_name ≠ PyVal.none ∧ number ≠ PyVal.none then
    match pyInt number with
    | Except.error e => Except.error e
    | Except.ok nNumber =>
      let sVariation : Option String :=
        if variation ≠ PyVal.none then some (pyStr variation) else Option.none
      match (if fold_number ≠ PyVal.none then (pyInt fold_number).map some
             else (Except.ok Option.none : Except Err (Option Int))) with
      | Except.error e => Except.error e
      | Except.ok nFoldNumber =>
        let sCode := pyStr base_name ++ "_" ++ format02 nNumber
        let sCode := if variation ≠ PyVal.none then sCode ++ "." ++ sVariation.getD ""
                     else sCode
        let sCode := match nFoldNumber with
          | some nf => sCode ++ "-" ++ format02 nf
          | Option.none => sCode
        Except.ok sCode
  else Except.error Err.invalidIdentity

/-- `experiment_number_and_variation(experiment_code)`: an `int` passes
through with no variation; a string is split on every `.`, the first field
is parsed with `int()` and the second field (if any) is the variation; any
other value raises (`.split` on a non-string is an `AttributeError`). -/
def experiment_number_and_variation (experiment_code : PyVal) :
    Except Err (Int × Option String) :=
  match experiment_code with
  | PyVal.int n => Except.ok (n, Option.none)
  | PyVal.str s =>
    let sParts := splitOnDot s.toList
    match pyIntOfChars (sParts.headD []) with
    | Option.none => Except.error Err.typeMismatch
    | some nNumber =>
      if sParts.length > 1 then
        Except.ok (nNumber, some (String.mk ((sParts.get? 1).getD [])))
      else Except.ok (nNumber, Option.none)
  | _ => Except.error Err.attributeError

/-- `experiment_code_and_timestamp(filename)`: strip directory and
extension, split the stem on the first two underscores, reassemble the
first two parts into a compact ISO timestamp and parse it; the third part
is returned verbatim as the experiment code. -/
def experiment_code_and_timestamp (filename : String) :
    Except Err (String × PyDateTime) :=
  let sParts := splitUnderscoreAux (stemOf filename) 2 []
  match sParts.get? 0 with
  | Option.none => Except.error Err.indexError
  | some p0 =>
    match sParts.get? 1 with
    | Option.none => Except.error Err.indexError
    | some p1 =>
      let sISODate := p0 ++ ['T'] ++ pySliceChars p1 0 2 ++ [':'] ++
                      pySliceChars p1 2 4 ++ [':'] ++ pySliceChars p1 4 6
      match sParts.get? 2 with
      | Option.none => Except.error Err.indexError
      | some p2 =>
        match fromisoformat sISODate with
        | Except.error e => Except.error e
        | Except.ok dt => Except.ok (String.mk p2, dt)

/-- What a path resolves to on the file system: a parsed JSON object, or
something that exists but is not a JSON object (so `json.loads` or the key
iteration fails). -/
inductive FileContent where
  | obj (kvs : List (String × PyVal))
  | other
deriving DecidableEq

/-- The file system seen by `load`: each path either holds content or does
not exist. -/
def FS : Type := String → Option FileContent

/-- The configuration container: a dict subclass plus the non-persisted
`filename` attribute. -/
structure MLExperimentConfig where
  entries : List (String × PyVal)
  filename : Option String
deriving DecidableEq, Repr

/-- `setDefaults`: the overridable hook, a no-op in the base class. -/
def MLExperimentConfig.setDefaults (cfg : MLExperimentConfig) : MLExperimentConfig := cfg

/-- `load(filename, must_exist)`: resolve the target (argument or stored
filename), and if it exists run `setDefaults` then copy every key of the
parsed JSON object over the current entries; a missing path is a no-op
unless `must_exist`, which raises the configuration-not-found error.
Passing no filename with none stored makes `os.path.exists(None)` raise a
`TypeError`. -/
def MLExperimentConfig.load (cfg : MLExperimentConfig) (fs : FS)
    (filename : Option String) (must_exist : Bool) : Except Err MLExperimentConfig :=
  let fname := match filename with
    | some f => some f
    | Option.none => cfg.filename
  match fname with
  | Option.none => Except.error Err.typeMismatch
  | some f =>
    match fs f with
    | some (FileContent.obj kvs) =>
      let cfg1 := cfg.setDefaults
      Except.ok { cfg1 with entries := dictUpdate cfg1.entries kvs }
    | some FileContent.other => Except.error Err.jsonError
    | Option.none =>
      if must_exist then Except.error Err.configNotFound else Except.ok cfg
/-- `assign(config_dict)`: copy every key in, then default
`Experiment.BaseName` from `ModelName` when it is still `None`, then append
`"_" + DatasetName` to it when a `DatasetName` key came in (an augmented
assignment: the current value is read first, then `"_" + D` is computed,
then the two are added — each step able to raise). -/
def MLExperimentConfig.assign (cfg : MLExperimentConfig)
    (config_dict : List (String × PyVal)) : Except Err MLExperimentConfig :=
  let m0 := dictUpdate cfg.entries config_dict
  match dictGet m0 "Experiment.BaseName" with
  | Except.error e => Except.error e
  | Except.ok vBase =>
    let m1 := if vBase = PyVal.none ∧ (mapGet? config_dict "ModelName").isSome then
                mapSet m0 "Experiment.BaseName"
                  ((mapGet? config_dict "ModelName").getD PyVal.none)
              else m0
    if (mapGet? config_dict "DatasetName").isSome then
      match dictGet m1 "Experiment.BaseName" with
      | Except.error e => Except.error e
      | Except.ok cur =>
        match pyAdd (PyVal.str "_") ((mapGet? config_dict "DatasetName").getD PyVal.none) with
        | Except.error e => Except.error e
        | Except.ok inner =>
          match pyAdd cur inner with
          | Except.error e => Except.error e
          | Except.ok newv =>
            Except.ok { cfg with entries := mapSet m1 "Experiment.BaseName" newv }
    else Except.ok { cfg with entries := m1 }

/-- `__init__(filename, base_name, number, variation, fold_number,
hyperparams)`: store the base name (possibly `None`) under
`Experiment.BaseName`, load the file when a filename is given, then set the
number/variation/fold keys for the arguments that were provided, and
finally merge `hyperparams` via `assign`. -/
def MLExperimentConfig.init (fs : FS) (filename : Option String) (base_name : PyVal)
    (number : PyVal) (variation : PyVal) (fold_number : PyVal)
    (hyperparams : Option (List (String × PyVal))) : Except Err MLExperimentConfig :=
  let cfg0 : MLExperimentConfig := ⟨[("Experiment.BaseName", base_name)], filename⟩
  match (match filename with
         | some _ => cfg0.load fs Option.none false
         | Option.none => Except.ok cfg0) with
  | Except.error e => Except.error e
  | Except.ok cfg1 =>
    let cfg2 := if number ≠ PyVal.none then
                  { cfg1 with entries := mapSet cfg1.entries "Experiment.Number" number }
                else cfg1
    let cfg3 := if variation ≠ PyVal.none then
                  { cfg2 with entries := mapSet cfg2.entries "Experiment.Variation" variation }
                else cfg2
    let cfg4 := if fold_number ≠ PyVal.none then
                  { cfg3 with entries := mapSet cfg3.entries "Experiment.FoldNumber" fold_number }
                else cfg3
    match hyperparams with
    | some hp => cfg4.assign hp
    | Option.none => Except.ok cfg4

/-- The read-only property `experiment_code`: delegates to
`get_experiment_code` on the container's own entries. -/
def MLExperimentConfig.experiment_code (cfg : MLExperimentConfig) : Except Err String :=
  get_experiment_code cfg.entries

lemma digit_facts {c : Char} (h : isDigitChar c = true) :
    c ≠ '.' ∧ c ≠ '_' ∧ c ≠ '-' ∧ c ≠ '+' ∧ isPySpace c = false := by
  simp only [isDigitChar, Bool.or_eq_true, decide_eq_true_eq] at h
  obtain ((((((((h | h) | h) | h) | h) | h) | h) | h) | h) | h := h <;> subst h <;>
    exact ⟨by decide, by decide, by decide, by decide, by decide⟩

lemma digitChar_lt10 {d : Nat} (h : d < 10) :
    isDigitChar (digitChar d) = true ∧ digitVal (digitChar d) = d := by
  interval_cases d <;> exact ⟨by decide, by decide⟩

lemma parseDigitsAux_digits (cs : List Char) (h : ∀ c ∈ cs, isDigitChar c = true) :
    ∀ acc, parseDigitsAux cs acc =
      some (cs.foldl (fun a c => a * 10 + digitVal c) acc) := by
  induction cs with
  | nil => intro acc; rfl
  | cons c rest ih =>
    intro acc
    have hc : isDigitChar c = true := h c (by simp)
    have hstep : parseDigitsAux (c :: rest) acc = parseDigitsAux rest (acc * 10 + digitVal c) := by
      conv_lhs => rw [parseDigitsAux.eq_def]
      simp only [if_neg (digit_facts hc).2.1, if_pos hc]
    rw [hstep, List.foldl_cons]
    exact ih (fun a ha => h a (by simp [ha])) _

lemma natDigitsAux_spec : ∀ (fuel n : Nat), n < fuel →
    natDigitsAux fuel n ≠ [] ∧
    (∀ c ∈ natDigitsAux fuel n, isDigitChar c = true) ∧
    ∀ acc, (natDigitsAux fuel n).foldl (fun a c => a * 10 + digitVal c) acc
        = acc * 10 ^ (natDigitsAux fuel n).length + n := by
  intro fuel
  induction fuel with
  | zero => intro n h; omega
  | succ f ih =>
    intro n h
    by_cases h10 : n < 10
    · simp only [natDigitsAux, if_pos h10]
      refine ⟨by simp, ?_, ?_⟩
      · intro c hc
        rw [List.mem_singleton] at hc
        subst hc
        exact (digitChar_lt10 h10).1
      · intro acc
        simp [List.foldl, (digitChar_lt10 h10).2]
    · have hdiv : n / 10 < n := Nat.div_lt_self (by omega) (by omega)
      have hrec := ih (n / 10) (by omega)
      simp only [natDigitsAux, if_neg h10]
      have hmod : n % 10 < 10 := Nat.mod_lt _ (by omega)
      refine ⟨by simp, ?_, ?_⟩
      · intro c hc
        rw [List.mem_append] at hc
        rcases hc with hc | hc
        · exact hrec.2.1 c hc
        · rw [List.mem_singleton] at hc
          subst hc
          exact (digitChar_lt10 hmod).1
      · intro acc
        rw [List.foldl_append, hrec.2.2 acc]
        simp [List.foldl, (digitChar_lt10 hmod).2, pow_succ]
        have hdm : 10 * (n / 10) + n % 10 = n := Nat.div_add_mod n 10
        ring_nf
        omega

lemma natDigits_ne_nil (n : Nat) : natDigits n ≠ [] :=
  (natDigitsAux_spec (n + 1) n (by omega)).1

lemma natDigits_digits (n : Nat) : ∀ c ∈ natDigits n, isDigitChar c = true :=
  (natDigitsAux_spec (n + 1) n (by omega)).2.1

lemma natDigits_foldl (n : Nat) :
    (natDigits n).foldl (fun a c => a * 10 + digitVal c) 0 = n := by
  have h := (natDigitsAux_spec (n + 1) n (by omega)).2.2 0
  simpa using h

lemma dropWhile_eq_self_of_none {p : Char → Bool} {cs : List Char}
    (h : ∀ c ∈ cs, p c = false) : cs.dropWhile p = cs := by
  cases cs with
  | nil => rfl
  | cons c rest => simp [List.dropWhile, h c (by simp)]

lemma pyStrip_id {cs : List Char} (h : ∀ c ∈ cs, isPySpace c = false) :
    pyStrip cs = cs := by
  unfold pyStrip
  rw [dropWhile_eq_self_of_none h,
      dropWhile_eq_self_of_none (fun c hc => h c (List.mem_reverse.mp hc)),
      List.reverse_reverse]

lemma pyIntOfChars_digits_val {cs : List Char} (hne : cs ≠ [])
    (h : ∀ c ∈ cs, isDigitChar c = true) :
    pyIntOfChars cs = some ((cs.foldl (fun a c => a * 10 + digitVal c) 0 : Nat) : Int) := by
  obtain ⟨c, rest, rfl⟩ := List.exists_cons_of_ne_nil hne
  have hc := h c (by simp)
  have hfacts := digit_facts hc
  unfold pyIntOfChars
  rw [pyStrip_id (fun a ha => (digit_facts (h a ha)).2.2.2.2)]
  simp only [if_neg hfacts.2.2.1, if_neg hfacts.2.2.2.1, if_pos hc]
  rw [parseDigitsAux_digits _ h 0]
  simp

lemma pyIntOfChars_neg_digits {cs : List Char} (hne : cs ≠ [])
    (h : ∀ c ∈ cs, isDigitChar c = true) :
    pyIntOfChars ('-' :: cs) =
      some (-((cs.foldl (fun a c => a * 10 + digitVal c) 0 : Nat) : Int)) := by
  obtain ⟨c2, rest2, rfl⟩ := List.exists_cons_of_ne_nil hne
  have hc2 : isDigitChar c2 = true := h c2 (by simp)
  unfold pyIntOfChars
  rw [pyStrip_id ?hsp]
  case hsp =>
    intro a ha
    rcases List.mem_cons.mp ha with ha | ha
    · subst ha; decide
    · exact (digit_facts (h a ha)).2.2.2.2
  simp only [if_pos rfl, if_pos hc2]
  rw [parseDigitsAux_digits _ h 0]
  rfl

lemma format02chars_eval (n : Int) : pyIntOfChars (format02chars n) = some n := by
  by_cases hneg : n < 0
  · have hnn := natDigits_ne_nil n.natAbs
    have hpos : 0 < (natDigits n.natAbs).length := List.length_pos.mpr hnn
    have hform : format02chars n = '-' :: natDigits n.natAbs := by
      simp only [format02chars, intReprChars, if_pos hneg]
      rw [if_neg (by simp only [List.length_cons]; omega)]
    rw [hform, pyIntOfChars_neg_digits hnn (natDigits_digits _), natDigits_foldl]
    congr 1
    omega
  · have hform : format02chars n =
        (if (natDigits n.toNat).length < 2 then '0' :: natDigits n.toNat
         else natDigits n.toNat) := by
      simp only [format02chars, intReprChars, if_neg hneg]
    rw [hform]
    have hdig0 : ∀ c ∈ '0' :: natDigits n.toNat, isDigitChar c = true := by
      intro c hc
      rcases List.mem_cons.mp hc with hc | hc
      · subst hc; decide
      · exact natDigits_digits _ c hc
    split
    · rw [pyIntOfChars_digits_val (by simp) hdig0]
      simp only [List.foldl_cons]
      have hd0 : digitVal '0' = 0 := by decide
      rw [hd0]
      simp only [Nat.mul_zero, Nat.zero_mul, Nat.add_zero, Nat.zero_add]
      rw [natDigits_foldl]
      congr 1
      omega
    · rw [pyIntOfChars_digits_val (natDigits_ne_nil _) (natDigits_digits _), natDigits_foldl]
      congr 1
      omega

lemma format02chars_chars (n : Int) :
    ∀ c ∈ format02chars n, c = '-' ∨ isDigitChar c = true := by
  intro c hc
  have hbase : ∀ a : Char, a ∈ intReprChars n → a = '-' ∨ isDigitChar a = true := by
    intro a ha
    unfold intReprChars at ha
    split at ha
    · rcases List.mem_cons.mp ha with ha | ha
      · exact Or.inl ha
      · exact Or.inr (natDigits_digits _ a ha)
    · exact Or.inr (natDigits_digits _ a ha)
  simp only [format02chars] at hc
  split at hc
  · rcases List.mem_cons.mp hc with hc | hc
    · subst hc; exact Or.inr (by decide)
    · exact hbase c hc
  · exact hbase c hc

lemma format02chars_no_dot (n : Int) : '.' ∉ format02chars n := by
  intro hmem
  rcases format02chars_chars n '.' hmem with h | h
  · exact absurd h (by decide)
  · exact absurd h (by decide)

lemma splitOnDotAux_shape (cs : List Char) : ∀ acc, ∃ tail,
    splitOnDotAux cs acc = (acc.reverse ++ cs.takeWhile (fun c => c != '.')) :: tail := by
  induction cs with
  | nil => intro acc; exact ⟨[], by simp [splitOnDotAux]⟩
  | cons c rest ih =>
    intro acc
    by_cases hc : c = '.'
    · subst hc
      refine ⟨splitOnDotAux rest [], ?_⟩
      simp [splitOnDotAux, List.takeWhile]
    · obtain ⟨tail, htail⟩ := ih (c :: acc)
      refine ⟨tail, ?_⟩
      have hb : (c != '.') = true := by simp [hc]
      simp only [splitOnDotAux, if_neg hc, htail, List.takeWhile_cons, hb]
      simp

lemma splitOnDotAux_no_dot (cs : List Char) (h : ∀ c ∈ cs, ¬ c = '.') :
    ∀ acc, splitOnDotAux cs acc = [acc.reverse ++ cs] := by
  induction cs with
  | nil => intro acc; simp [splitOnDotAux]
  | cons c rest ih =>
    intro acc
    have hc : ¬ c = '.' := h c (by simp)
    rw [splitOnDotAux, if_neg hc, ih (fun a ha => h a (by simp [ha]))]
    simp

lemma splitOnDotAux_split (p : List Char) (hp : ∀ c ∈ p, ¬ c = '.') (r : List Char) :
    ∀ acc, splitOnDotAux (p ++ '.' :: r) acc = (acc.reverse ++ p) :: splitOnDotAux r [] := by
  induction p with
  | nil => intro acc; simp [splitOnDotAux]
  | cons c rest ih =>
    intro acc
    have hc : ¬ c = '.' := hp c (by simp)
    rw [List.cons_append, splitOnDotAux, if_neg hc,
        ih (fun a ha => hp a (by simp [ha]))]
    simp

lemma splitU_stop (cs : List Char) : ∀ acc, splitUnderscoreAux cs 0 acc = [acc.reverse ++ cs] := by
  induction cs with
  | nil => intro acc; simp [splitUnderscoreAux]
  | cons c rest ih =>
    intro acc
    by_cases hc : c = '_'
    · rw [splitUnderscoreAux, if_pos hc, ih (c :: acc)]
      simp
    · rw [splitUnderscoreAux, if_neg hc, ih (c :: acc)]
      simp

lemma splitU_step (l : List Char) (hl : ∀ a ∈ l, ¬ a = '_') (rest : List Char) (k : Nat) :
    ∀ acc, splitUnderscoreAux (l ++ '_' :: rest) (k + 1) acc =
      (acc.reverse ++ l) :: splitUnderscoreAux rest k [] := by
  induction l with
  | nil => intro acc; simp [splitUnderscoreAux]
  | cons c rest2 ih =>
    intro acc
    have hc : ¬ c = '_' := hl c (by simp)
    rw [List.cons_append, splitUnderscoreAux, if_neg hc,
        ih (fun a ha => hl a (by simp [ha]))]
    simp

lemma splitU_two (d t c : List Char) (hd : ∀ a ∈ d, ¬ a = '_') (ht : ∀ a ∈ t, ¬ a = '_') :
    splitUnderscoreAux (d ++ '_' :: (t ++ '_' :: c)) 2 [] = [d, t, c] := by
  rw [show (2 : Nat) = 1 + 1 from rfl, splitU_step d hd _ 1 [],
      show (1 : Nat) = 0 + 1 from rfl, splitU_step t ht c 0 [], splitU_stop c []]
  simp

lemma mapGet?_mapSet_self (m : List (String × PyVal)) (k : String) (v : PyVal) :
    mapGet? (mapSet m k v) k = some v := by
  induction m with
  | nil => simp [mapSet, mapGet?]
  | cons kv rest ih =>
    obtain ⟨k', v'⟩ := kv
    by_cases h : k' = k
    · rw [mapSet, if_pos h, mapGet?, if_pos rfl]
    · rw [mapSet, if_neg h, mapGet?, if_neg h, ih]

lemma mapGet?_mapSet_ne (m : List (String × PyVal)) (k : String) (v : PyVal)
    (k' : String) (h : ¬ k' = k) : mapGet? (mapSet m k v) k' = mapGet? m k' := by
  induction m with
  | nil =>
    have h' : ¬ k = k' := fun he => h he.symm
    simp [mapSet, mapGet?, h']
  | cons kv rest ih =>
    obtain ⟨k0, v0⟩ := kv
    by_cases h0 : k0 = k
    · subst h0
      rw [mapSet, if_pos rfl, mapGet?, if_neg (fun he => h he.symm), mapGet?,
          if_neg (fun he => h he.symm)]
    · rw [mapSet, if_neg h0, mapGet?, mapGet?]
      by_cases h1 : k0 = k'
      · rw [if_pos h1, if_pos h1]
      · rw [if_neg h1, if_neg h1, ih]

lemma mapGet?_mapSet_isSome (m : List (String × PyVal)) (k : String) (v : PyVal)
    (k' : String) (h : (mapGet? m k').isSome = true) :
    (mapGet? (mapSet m k v) k').isSome = true := by
  by_cases he : k' = k
  · subst he
    rw [mapGet?_mapSet_self]
    rfl
  · rw [mapGet?_mapSet_ne m k v k' he]
    exact h

lemma dictUpdate_cons (m : List (String × PyVal)) (kv : String × PyVal)
    (d : List (String × PyVal)) :
    dictUpdate m (kv :: d) = dictUpdate (mapSet m kv.1 kv.2) d := rfl

lemma dictUpdate_not_mem (m d : List (String × PyVal)) (k : String)
    (h : k ∉ d.map Prod.fst) : mapGet? (dictUpdate m d) k = mapGet? m k := by
  induction d generalizing m with
  | nil => rfl
  | cons kv rest ih =>
    rw [dictUpdate_cons, ih _ (fun hm => h (by simp [hm]))]
    exact mapGet?_mapSet_ne m kv.1 kv.2 k (fun he => h (by simp [he]))

lemma dictUpdate_mem_nodup (d : List (String × PyVal)) :
    ∀ (m : List (String × PyVal)) (k : String) (v : PyVal),
      (d.map Prod.fst).Nodup → (k, v) ∈ d → mapGet? (dictUpdate m d) k = some v := by
  induction d with
  | nil =>
    intro m k v _ hmem
    exact absurd hmem (by simp)
  | cons kv rest ih =>
    intro m k v hnd hmem
    rcases List.mem_cons.mp hmem with hmem | hmem
    · subst hmem
      rw [dictUpdate_cons]
      have hk : k ∉ rest.map Prod.fst := by
        simp only [List.map_cons, List.nodup_cons] at hnd
        exact hnd.1
      rw [dictUpdate_not_mem _ _ _ hk]
      exact mapGet?_mapSet_self m k v
    · rw [dictUpdate_cons]
      refine ih _ k v ?_ hmem
      simp only [List.map_cons, List.nodup_cons] at hnd
      exact hnd.2

lemma dictUpdate_isSome (m d : List (String × PyVal)) (k : String)
    (h : (mapGet? m k).isSome = true) : (mapGet? (dictUpdate m d) k).isSome = true := by
  induction d generalizing m with
  | nil => exact h
  | cons kv rest ih =>
    rw [dictUpdate_cons]
    exact ih _ (mapGet?_mapSet_isSome m kv.1 kv.2 k h)

lemma dictGet_ok (m : List (String × PyVal)) (k : String) (v : PyVal)
    (h : mapGet? m k = some v) : dictGet m k = Except.ok v := by
  rw [dictGet, h]

lemma dictGet_of_isSome (m : List (String × PyVal)) (k : String)
    (h : (mapGet? m k).isSome = true) (e : Err) : dictGet m k ≠ Except.error e := by
  rw [dictGet]
  cases hm : mapGet? m k with
  | none => rw [hm] at h; exact absurd h (by simp)
  | some v => simp

lemma takeWhile_eq_self_of_all {p : Char → Bool} {cs : List Char}
    (h : ∀ c ∈ cs, p c = true) : cs.takeWhile p = cs := by
  induction cs with
  | nil => rfl
  | cons c rest ih =>
    simp [List.takeWhile_cons, h c (by simp), ih (fun a ha => h a (by simp [ha]))]

lemma takeUntilDot_no_dot (v : String) (h : '.' ∉ v.toList) : takeUntilDot v = v := by
  unfold takeUntilDot
  rw [takeWhile_eq_self_of_all (fun c hc => by simp; exact fun he => h (he ▸ hc))]
  rfl

lemma decode_str_no_dot (s : String) (n : Int) (hdot : '.' ∉ s.toList)
    (hparse : pyIntOfChars s.toList = some n) :
    experiment_number_and_variation (PyVal.str s) = Except.ok (n, Option.none) := by
  have hparse' : pyIntOfChars s.data = some n := hparse
  simp only [experiment_number_and_variation, splitOnDot]
  rw [splitOnDotAux_no_dot s.toList (fun c hc he => hdot (he ▸ hc)) []]
  simp [hparse']

lemma decode_str_with_dot (p r : String) (n : Int) (hdot : '.' ∉ p.toList)
    (hparse : pyIntOfChars p.toList = some n) :
    experiment_number_and_variation (PyVal.str (p ++ "." ++ r)) =
      Except.ok (n, some (takeUntilDot r)) := by
  have hlist : (p ++ "." ++ r).toList = p.toList ++ '.' :: r.toList := by
    show (p.toList ++ ['.']) ++ r.toList = p.toList ++ '.' :: r.toList
    simp
  have hparse' : pyIntOfChars p.data = some n := hparse
  simp only [experiment_number_and_variation, splitOnDot, hlist]
  rw [splitOnDotAux_split p.toList (fun c hc he => hdot (he ▸ hc)) r.toList []]
  obtain ⟨tail, htail⟩ := splitOnDotAux_shape r.toList []
  rw [htail]
  simp [hparse', takeUntilDot]

/-- Claim C1, amended: evaluating `experiment_code` fails with
`InvalidIdentity` exactly when the `Experiment.BaseName` key or the
`Experiment.Number` key is absent from the container's mapping; a key that
is present with a null value does not trigger the error (see the
counterexample: a container built with `base_name` omitted yields the
string `"None_03"`). -/
theorem get_experiment_code_missing_key (config_dict : List (String × PyVal))
    (h : mapGet? config_dict "Experiment.BaseName" = Option.none ∨
         mapGet? config_dict "Experiment.Number" = Option.none) :
    get_experiment_code config_dict = Except.error Err.invalidIdentity := by
  unfold get_experiment_code
  cases hB : mapGet? config_dict "Experiment.BaseName" <;>
    cases hN : mapGet? config_dict "Experiment.Number" <;>
    first
    | rfl
    | (rw [hB, hN] at h
       rcases h with h | h <;> simp at h)

/-- Witness for C1: a container holding only a base name (no number key)
fails with `InvalidIdentity`. -/
theorem get_experiment_code_missing_key_witness :
    get_experiment_code [("Experiment.BaseName", PyVal.str "Model")] =
      Except.error Err.invalidIdentity :=
  get_experiment_code_missing_key _ (Or.inr (by decide))

/-- Counterexample to C1 as stated: a container constructed with `base_name`
omitted (so `Experiment.BaseName` is present but null) and number 3 does not
fail with `InvalidIdentity`; its `experiment_code` returns the string
`"None_03"`. -/
theorem experiment_code_null_basename_cex :
    (MLExperimentConfig.init (fun _ => Option.none) Option.none PyVal.none (PyVal.int 3)
        PyVal.none PyVal.none Option.none).map MLExperimentConfig.experiment_code
      = Except.ok (Except.ok "None_03") := by decide

/-- Claim C6: on a path that does not exist, `load` with `must_exist=True`
fails with the configuration-not-found error, and with `must_exist=False`
it succeeds and returns the container itself completely unchanged. -/
theorem load_missing_path (fs : FS) (cfg : MLExperimentConfig) (path : String)
    (h : fs path = Option.none) :
    cfg.load fs (some path) true = Except.error Err.configNotFound ∧
    cfg.load fs (some path) false = Except.ok cfg := by
  constructor <;> simp [MLExperimentConfig.load, h]

/-- Witness for C6 on a concrete container and empty file system. -/
theorem load_missing_path_witness :
    (MLExperimentConfig.mk [("A", PyVal.int 1)] Option.none).load (fun _ => Option.none)
        (some "missing.json") true = Except.error Err.configNotFound ∧
    (MLExperimentConfig.mk [("A", PyVal.int 1)] Option.none).load (fun _ => Option.none)
        (some "missing.json") false
      = Except.ok (MLExperimentConfig.mk [("A", PyVal.int 1)] Option.none) :=
  load_missing_path (fun _ => Option.none) _ "missing.json" rfl

/-- Claim C3: for a base name, an integer-coercible number, an optional
variation string and an optional integer-coercible fold number, the encoder
produces exactly `{base_name}_{number:02d}[.{variation}][-{fold:02d}]`. -/
theorem get_experiment_code_ex_canonical (b : String) (num : PyVal) (n : Int)
    (var : Option String) (fold : Option PyVal) (f : Int)
    (hn : pyInt num = Except.ok n)
    (hf : ∀ fv, fold = some fv → pyInt fv = Except.ok f) :
    get_experiment_code_ex (PyVal.str b) num
      (match var with | some v => PyVal.str v | Option.none => PyVal.none)
      (match fold with | some fv => fv | Option.none => PyVal.none)
    = Except.ok (b ++ "_" ++ format02 n
        ++ (match var with | some v => "." ++ v | Option.none => "")
        ++ (match fold with | some _ => "-" ++ format02 f | Option.none => "")) := by
  have hnum : num ≠ PyVal.none := by
    intro he
    rw [he] at hn
    exact absurd hn (by simp [pyInt])
  unfold get_experiment_code_ex
  rw [if_pos ⟨by simp, hnum⟩, hn]
  cases var with
  | none =>
    cases fold with
    | none => simp [pyStr, String.append_empty]
    | some fv =>
      have hfv := hf fv rfl
      have hfvne : fv ≠ PyVal.none := by
        intro he
        rw [he] at hfv
        exact absurd hfv (by simp [pyInt])
      simp [pyStr, hfv, hfvne, Except.map, String.append_empty, String.append_assoc]
  | some v =>
    cases fold with
    | none => simp [pyStr, String.append_empty, String.append_assoc]
    | some fv =>
      have hfv := hf fv rfl
      have hfvne : fv ≠ PyVal.none := by
        intro he
        rw [he] at hfv
        exact absurd hfv (by simp [pyInt])
      simp [pyStr, hfv, hfvne, Except.map, String.append_assoc]

/-- Witness for C3: the claim's own example
`encode("Model", 3, variation="b", fold_number=2) = "Model_03.b-02"`. -/
theorem get_experiment_code_ex_canonical_witness :
    get_experiment_code_ex (PyVal.str "Model") (PyVal.int 3) (PyVal.str "b") (PyVal.int 2)
        = Except.ok ("Model" ++ "_" ++ format02 3 ++ ("." ++ "b") ++ ("-" ++ format02 2)) ∧
    get_experiment_code_ex (PyVal.str "Model") (PyVal.int 3) (PyVal.str "b") (PyVal.int 2)
        = Except.ok "Model_03.b-02" :=
  ⟨get_experiment_code_ex_canonical "Model" (PyVal.int 3) 3 (some "b")
      (some (PyVal.int 2)) 2 rfl (fun fv h => by cases h; rfl),
   by decide⟩

/-- Claim C2, amended: an integer input passes through as `(n, absent)`; a
string with no `.` parses wholly as the number with an absent variation; a
string with at least one `.` yields the integer parse of the part before
the first `.` and, as variation, the field between the first and second `.`
(not the entire remainder after the first dot: the split is unlimited and
only the second field is kept). -/
theorem experiment_number_and_variation_cases :
    (∀ n : Int, experiment_number_and_variation (PyVal.int n) = Except.ok (n, Option.none)) ∧
    (∀ (s : String) (n : Int), '.' ∉ s.toList → pyIntOfChars s.toList = some n →
      experiment_number_and_variation (PyVal.str s) = Except.ok (n, Option.none)) ∧
    (∀ (p r : String) (n : Int), '.' ∉ p.toList → pyIntOfChars p.toList = some n →
      experiment_number_and_variation (PyVal.str (p ++ "." ++ r)) =
        Except.ok (n, some (takeUntilDot r))) :=
  ⟨fun _ => rfl, decode_str_no_dot, decode_str_with_dot⟩

/-- Witness for C2: the claim's examples `7 → (7, None)`, `"7" → (7, None)`
and `"7.alt" → (7, "alt")`. -/
theorem experiment_number_and_variation_cases_witness :
    experiment_number_and_variation (PyVal.int 7) = Except.ok (7, Option.none) ∧
    experiment_number_and_variation (PyVal.str "7") = Except.ok (7, Option.none) ∧
    experiment_number_and_variation (PyVal.str ("7" ++ "." ++ "alt")) =
      Except.ok (7, some (takeUntilDot "alt")) :=
  ⟨experiment_number_and_variation_cases.1 7,
   experiment_number_and_variation_cases.2.1 "7" 7 (by decide) (by decide),
   experiment_number_and_variation_cases.2.2 "7" "alt" 7 (by decide) (by decide)⟩

/-- Counterexample to C2 as stated: on `"7.a.b"` the decoder returns the
variation `"a"` (the field between the first two dots), not the entire
remainder `"a.b"` after the first dot that the claim requires. -/
theorem experiment_number_and_variation_cex :
    experiment_number_and_variation (PyVal.str "7.a.b") = Except.ok (7, some "a") ∧
    experiment_number_and_variation (PyVal.str "7.a.b") ≠ Except.ok (7, some "a.b") := by
  decide

/-- Claim C4, amended: decoding the number/variation portion of an encoded
code recovers the number and the variation exactly, provided the variation
(when present) contains no `.` itself; a variation containing a dot is
truncated at that dot by the decode (see the counterexample). -/
theorem encode_decode_number_variation (n : Int) (var : Option String)
    (hvar : ∀ v, var = some v → '.' ∉ v.toList) :
    experiment_number_and_variation
      (PyVal.str (format02 n ++ (match var with | some v => "." ++ v | Option.none => "")))
      = Except.ok (n, var) := by
  cases var with
  | none =>
    rw [String.append_empty]
    exact decode_str_no_dot (format02 n) n (format02chars_no_dot n) (format02chars_eval n)
  | some v =>
    rw [← String.append_assoc]
    rw [decode_str_with_dot (format02 n) v n (format02chars_no_dot n) (format02chars_eval n)]
    rw [takeUntilDot_no_dot v (hvar v rfl)]

/-- Witness for C4 at number 7 and variation "alt": the encoded portion is
`"07.alt"` and decodes back to `(7, some "alt")`. -/
theorem encode_decode_number_variation_witness :
    experiment_number_and_variation (PyVal.str (format02 7 ++ ("." ++ "alt"))) =
      Except.ok (7, some "alt") ∧
    format02 7 ++ ("." ++ "alt") = "07.alt" :=
  ⟨encode_decode_number_variation 7 (some "alt") (fun v hv => by cases hv; decide),
   by decide⟩

/-- Counterexample to C4 as stated: with number 3 and variation `"a.b"` the
round trip does not recover the variation: the decode returns `"a"`. -/
theorem encode_decode_number_variation_cex :
    experiment_number_and_variation (PyVal.str (format02 3 ++ "." ++ "a.b")) =
      Except.ok (3, some "a") ∧
    experiment_number_and_variation (PyVal.str (format02 3 ++ "." ++ "a.b")) ≠
      Except.ok (3, some "a.b") := by
  decide

/-- Claim C5, amended: if the container's `Experiment.BaseName` is the
string `B` and `assign` is called with a mapping that has a `DatasetName`
key with string value `D` — and that does not itself contain an
`Experiment.BaseName` key, which the copy step would install first — then
after the call `Experiment.BaseName` is `B ++ "_" ++ D`: an append, not a
replacement, and therefore not idempotent. -/
theorem assign_dataset_appends (cfg : MLExperimentConfig) (B D : String)
    (hp : List (String × PyVal))
    (hB : mapGet? cfg.entries "Experiment.BaseName" = some (PyVal.str B))
    (hnoBN : "Experiment.BaseName" ∉ hp.map Prod.fst)
    (hD : mapGet? hp "DatasetName" = some (PyVal.str D)) :
    (cfg.assign hp).map (fun c => mapGet? c.entries "Experiment.BaseName")
      = Except.ok (some (PyVal.str (B ++ "_" ++ D))) := by
  have hm0 : mapGet? (dictUpdate cfg.entries hp) "Experiment.BaseName"
      = some (PyVal.str B) := by
    rw [dictUpdate_not_mem _ _ _ hnoBN]
    exact hB
  have hcond : ¬ (PyVal.str B = PyVal.none ∧ (mapGet? hp "ModelName").isSome = true) := by
    rintro ⟨he, _⟩
    exact absurd he (by simp)
  simp only [MLExperimentConfig.assign, dictGet_ok _ _ _ hm0, hD, Option.isSome_some,
             if_neg hcond, ite_true, Option.getD, pyAdd, Except.map, mapGet?_mapSet_self,
             String.append_assoc]

/-- Witness for C5: the claim's example — base `"M"`, dataset `"D"` gives
`"M_D"`, and a second identical `assign` on the result gives `"M_D_D"`. -/
theorem assign_dataset_appends_witness :
    ((MLExperimentConfig.mk
          [("Experiment.BaseName", PyVal.str "M"), ("Experiment.Number", PyVal.int 1)]
          Option.none).assign [("DatasetName", PyVal.str "D")]).map
        (fun c => mapGet? c.entries "Experiment.BaseName")
      = Except.ok (some (PyVal.str ("M" ++ "_" ++ "D"))) ∧
    ((MLExperimentConfig.mk
          [("Experiment.BaseName", PyVal.str "M_D"), ("Experiment.Number", PyVal.int 1),
           ("DatasetName", PyVal.str "D")]
          Option.none).assign [("DatasetName", PyVal.str "D")]).map
        (fun c => mapGet? c.entries "Experiment.BaseName")
      = Except.ok (some (PyVal.str ("M_D" ++ "_" ++ "D"))) :=
  ⟨assign_dataset_appends _ "M" "D" _ (by decide) (by decide) (by decide),
   assign_dataset_appends _ "M_D" "D" _ (by decide) (by decide) (by decide)⟩

/-- Counterexample to C5 as stated: the claim quantifies over every mapping
containing a `DatasetName` key, but a mapping that also carries an
`Experiment.BaseName` key first overwrites the base name, so the result is
`"X_D"`, not the `"M_D"` the claim requires. -/
theorem assign_dataset_appends_cex :
    ((MLExperimentConfig.mk
          [("Experiment.BaseName", PyVal.str "M"), ("Experiment.Number", PyVal.int 1)]
          Option.none).assign
        [("Experiment.BaseName", PyVal.str "X"), ("DatasetName", PyVal.str "D")]).map
        (fun c => mapGet? c.entries "Experiment.BaseName")
      = Except.ok (some (PyVal.str "X_D")) ∧
    ((MLExperimentConfig.mk
          [("Experiment.BaseName", PyVal.str "M"), ("Experiment.Number", PyVal.int 1)]
          Option.none).assign
        [("Experiment.BaseName", PyVal.str "X"), ("DatasetName", PyVal.str "D")]).map
        (fun c => mapGet? c.entries "Experiment.BaseName")
      ≠ Except.ok (some (PyVal.str "M_D")) := by
  decide

/-- Claim C8, amended: on a container whose `Experiment.BaseName` is null,
`assign` with a mapping that has a `DatasetName` key but neither a
`ModelName` key nor an `Experiment.BaseName` key fails with the
type-mismatch error: the append step computes `None + "_" + DatasetName`.
(A mapping that carries its own `Experiment.BaseName` string escapes the
failure — see the counterexample.) -/
theorem assign_dataset_null_base_fails (cfg : MLExperimentConfig)
    (hp : List (String × PyVal)) (dval : PyVal)
    (hB : mapGet? cfg.entries "Experiment.BaseName" = some PyVal.none)
    (hnoBN : "Experiment.BaseName" ∉ hp.map Prod.fst)
    (hnoM : mapGet? hp "ModelName" = Option.none)
    (hD : mapGet? hp "DatasetName" = some dval) :
    cfg.assign hp = Except.error Err.typeMismatch := by
  have hm0 : mapGet? (dictUpdate cfg.entries hp) "Experiment.BaseName"
      = some PyVal.none := by
    rw [dictUpdate_not_mem _ _ _ hnoBN]
    exact hB
  cases dval <;>
    simp [MLExperimentConfig.assign, dictGet_ok _ _ _ hm0, hD, hnoM, Option.getD,
          pyAdd, pyArith?, Except.map]

/-- Witness for C8: a container with a null base name and the mapping
`{"DatasetName": "D"}` fails with the type-mismatch error. -/
theorem assign_dataset_null_base_fails_witness :
    (MLExperimentConfig.mk [("Experiment.BaseName", PyVal.none)] Option.none).assign
        [("DatasetName", PyVal.str "D")]
      = Except.error Err.typeMismatch :=
  assign_dataset_null_base_fails _ _ (PyVal.str "D") (by decide) (by decide) (by decide)
    (by decide)

/-- Counterexample to C8 as stated: the claim quantifies over every mapping
with a `DatasetName` key and no `ModelName` key, but a mapping that also
carries an `Experiment.BaseName` string succeeds (yielding `"X_D"`) instead
of failing with a type mismatch. -/
theorem assign_dataset_null_base_fails_cex :
    ((MLExperimentConfig.mk [("Experiment.BaseName", PyVal.none)] Option.none).assign
        [("Experiment.BaseName", PyVal.str "X"), ("DatasetName", PyVal.str "D")]).map
        (fun c => mapGet? c.entries "Experiment.BaseName")
      = Except.ok (some (PyVal.str "X_D")) ∧
    (MLExperimentConfig.mk [("Experiment.BaseName", PyVal.none)] Option.none).assign
        [("Experiment.BaseName", PyVal.str "X"), ("DatasetName", PyVal.str "D")]
      ≠ Except.error Err.typeMismatch := by
  decide

/-- Claim C7: when the stem of the filename (directory and extension
stripped) has at least two underscores — written here as
`d ++ "_" ++ t ++ "_" ++ c` with `d` and `t` underscore-free and `c` the
arbitrary remainder — `decode_filename` returns `c` verbatim as the
experiment code (even when `c` contains underscores) together with the
timestamp parsed from the date part `d` and the slices of the 6-digit time
part `t`. -/
theorem experiment_code_and_timestamp_splits (filename : String) (d t c : List Char)
    (hstem : stemOf filename = d ++ '_' :: (t ++ '_' :: c))
    (hd : '_' ∉ d) (ht : '_' ∉ t) :
    experiment_code_and_timestamp filename =
      match fromisoformat (d ++ ['T'] ++ pySliceChars t 0 2 ++ [':'] ++
              pySliceChars t 2 4 ++ [':'] ++ pySliceChars t 4 6) with
      | Except.error e => Except.error e
      | Except.ok dt => Except.ok (String.mk c, dt) := by
  have hsplit : splitUnderscoreAux (stemOf filename) 2 [] = [d, t, c] := by
    rw [hstem]
    exact splitU_two d t c (fun a ha he => hd (he ▸ ha)) (fun a ha he => ht (he ▸ ha))
  simp only [experiment_code_and_timestamp, hsplit]
  rfl

/-- Witness for C7: the claim's example filename decodes to the code
`"Model_03"` and the timestamp 2024-01-15T09:30:00. -/
theorem experiment_code_and_timestamp_splits_witness :
    experiment_code_and_timestamp "20240115_093000_Model_03.json" =
      Except.ok ("Model_03", PyDateTime.mk 2024 1 15 9 30 0) := by
  have h := experiment_code_and_timestamp_splits "20240115_093000_Model_03.json"
      "20240115".toList "093000".toList "Model_03".toList (by decide) (by decide) (by decide)
  rw [h]
  decide

lemma setIf_isSome (cfg : MLExperimentConfig) (cond : Prop) [Decidable cond]
    (key : String) (v : PyVal) (k : String)
    (h : (mapGet? cfg.entries k).isSome = true) :
    (mapGet? (if cond then { cfg with entries := mapSet cfg.entries key v }
              else cfg).entries k).isSome = true := by
  split
  · exact mapGet?_mapSet_isSome _ _ _ _ h
  · exact h

lemma load_ok_isSome {cfg cfg' : MLExperimentConfig} {fs : FS} {fn : Option String}
    {me : Bool} (k : String) (h : cfg.load fs fn me = Except.ok cfg')
    (hk : (mapGet? cfg.entries k).isSome = true) :
    (mapGet? cfg'.entries k).isSome = true := by
  simp only [MLExperimentConfig.load] at h
  split at h
  · exact absurd h (by simp)
  · split at h
    · simp only [Except.ok.injEq] at h
      subst h
      exact dictUpdate_isSome _ _ _ hk
    · exact absurd h (by simp)
    · split at h
      · exact absurd h (by simp)
      · simp only [Except.ok.injEq] at h
        subst h
        exact hk

lemma assign_ok_isSome {cfg cfg' : MLExperimentConfig} {hp : List (String × PyVal)}
    (k : String) (h : cfg.assign hp = Except.ok cfg')
    (hk : (mapGet? cfg.entries k).isSome = true) :
    (mapGet? cfg'.entries k).isSome = true := by
  have hm0 : (mapGet? (dictUpdate cfg.entries hp) k).isSome = true :=
    dictUpdate_isSome _ _ _ hk
  simp only [MLExperimentConfig.assign] at h
  split at h
  · exact absurd h (by simp)
  · split at h
    · split at h
      · exact absurd h (by simp)
      · split at h
        · exact absurd h (by simp)
        · split at h
          · exact absurd h (by simp)
          · simp only [Except.ok.injEq] at h
            subst h
            apply mapGet?_mapSet_isSome
            split
            · exact mapGet?_mapSet_isSome _ _ _ _ hm0
            · exact hm0
    · simp only [Except.ok.injEq] at h
      subst h
      dsimp only
      split
      · exact mapGet?_mapSet_isSome _ _ _ _ hm0
      · exact hm0

/-- Claim C9: however the constructor is called (even with `base_name`
omitted and whatever a loaded file or the hyperparameter merge contributed),
a successfully constructed container always contains the key
`Experiment.BaseName`; consequently the read of that key at the start of
`assign`'s base-name defaulting step can never fail with a missing-key
error on such a container. -/
theorem init_has_basename_key (fs : FS) (filename : Option String)
    (base_name number variation fold_number : PyVal)
    (hyperparams : Option (List (String × PyVal))) (hp : List (String × PyVal))
    (cfg : MLExperimentConfig)
    (h : MLExperimentConfig.init fs filename base_name number variation fold_number
          hyperparams = Except.ok cfg) :
    (mapGet? cfg.entries "Experiment.BaseName").isSome = true ∧
    dictGet (dictUpdate cfg.entries hp) "Experiment.BaseName"
      ≠ Except.error (Err.keyError "Experiment.BaseName") := by
  have h0 : (mapGet? ([("Experiment.BaseName", base_name)] : List (String × PyVal))
      "Experiment.BaseName").isSome = true := rfl
  simp only [MLExperimentConfig.init] at h
  have hsome : (mapGet? cfg.entries "Experiment.BaseName").isSome = true := by
    split at h
    · exact absurd h (by simp)
    · rename_i cfg1 heq1
      have h1 : (mapGet? cfg1.entries "Experiment.BaseName").isSome = true := by
        split at heq1
        · exact load_ok_isSome _ heq1 h0
        · simp only [Except.ok.injEq] at heq1
          rw [← heq1]
          exact h0
      have h4 := setIf_isSome _ (fold_number ≠ PyVal.none) "Experiment.FoldNumber"
        fold_number _
        (setIf_isSome _ (variation ≠ PyVal.none) "Experiment.Variation" variation _
          (setIf_isSome _ (number ≠ PyVal.none) "Experiment.Number" number _ h1))
      split at h
      · exact assign_ok_isSome _ h h4
      · simp only [Except.ok.injEq] at h
        rw [← h]
        exact h4
  exact ⟨hsome, dictGet_of_isSome _ _ (dictUpdate_isSome _ _ _ hsome) _⟩

/-- Witness for C9: a container constructed with every argument omitted
still has the `Experiment.BaseName` key (with a null value), and the
defaulting-step read on it does not raise a missing-key error. -/
theorem init_has_basename_key_witness :
    (mapGet? (MLExperimentConfig.mk [("Experiment.BaseName", PyVal.none)]
        Option.none).entries "Experiment.BaseName").isSome = true ∧
    dictGet (dictUpdate (MLExperimentConfig.mk [("Experiment.BaseName", PyVal.none)]
        Option.none).entries [("ModelName", PyVal.str "M")]) "Experiment.BaseName"
      ≠ Except.error (Err.keyError "Experiment.BaseName") :=
  init_has_basename_key (fun _ => Option.none) Option.none PyVal.none PyVal.none
    PyVal.none PyVal.none Option.none [("ModelName", PyVal.str "M")] _ (by decide)

/-- Claim C10: on an existing file holding a JSON object, `load` merges
rather than replaces: the base-class `setDefaults` hook is a no-op, every
key of the file's object ends up in the container with the file's value,
and every container key not named in the file keeps its previous value. -/
theorem load_merges (fs : FS) (cfg : MLExperimentConfig) (path : String)
    (kvs : List (String × PyVal)) (me : Bool) (k : String) (v : PyVal)
    (hfs : fs path = some (FileContent.obj kvs))
    (hnd : (kvs.map Prod.fst).Nodup) :
    MLExperimentConfig.setDefaults cfg = cfg ∧
    ((k, v) ∈ kvs →
      (cfg.load fs (some path) me).map (fun c => mapGet? c.entries k)
        = Except.ok (some v)) ∧
    (k ∉ kvs.map Prod.fst →
      (cfg.load fs (some path) me).map (fun c => mapGet? c.entries k)
        = Except.ok (mapGet? cfg.entries k)) := by
  refine ⟨rfl, ?_, ?_⟩
  · intro hmem
    simp only [MLExperimentConfig.load, MLExperimentConfig.setDefaults, hfs, Except.map,
               Except.ok.injEq]
    exact dictUpdate_mem_nodup kvs cfg.entries k v hnd hmem
  · intro hnot
    simp only [MLExperimentConfig.load, MLExperimentConfig.setDefaults, hfs, Except.map,
               Except.ok.injEq]
    exact dictUpdate_not_mem cfg.entries kvs k hnot

/-- Witness for C10 on a concrete file system: the file's keys overwrite
(`"A"` gets the file's value, `Experiment.BaseName` is overwritten) while
the unrelated key `"B"` keeps its previous value. -/
theorem load_merges_witness :
    (((MLExperimentConfig.mk [("Experiment.BaseName", PyVal.none), ("B", PyVal.int 2)]
          Option.none).load
        (fun p => if p = "cfg.json"
          then some (FileContent.obj
            [("A", PyVal.int 1), ("Experiment.BaseName", PyVal.str "F")])
          else Option.none)
        (some "cfg.json") false).map (fun c => mapGet? c.entries "A")
      = Except.ok (some (PyVal.int 1))) ∧
    (((MLExperimentConfig.mk [("Experiment.BaseName", PyVal.none), ("B", PyVal.int 2)]
          Option.none).load
        (fun p => if p = "cfg.json"
          then some (FileContent.obj
            [("A", PyVal.int 1), ("Experiment.BaseName", PyVal.str "F")])
          else Option.none)
        (some "cfg.json") false).map (fun c => mapGet? c.entries "B")
      = Except.ok (mapGet? (MLExperimentConfig.mk
          [("Experiment.BaseName", PyVal.none), ("B", PyVal.int 2)] Option.none).entries "B")) :=
  ⟨(load_merges _ _ "cfg.json"
      [("A", PyVal.int 1), ("Experiment.BaseName", PyVal.str "F")] false "A" (PyVal.int 1)
      (by decide) (by decide)).2.1 (by decide),
   (load_merges _ _ "cfg.json"
      [("A", PyVal.int 1), ("Experiment.BaseName", PyVal.str "F")] false "B" PyVal.none
      (by decide) (by decide)).2.2 (by decide)⟩

example : pyIntOfChars "07".toList = some 7 := by decide
example : pyIntOfChars " -12 ".toList = some (-12) := by decide
example : pyIntOfChars "1_0".toList = some 10 := by decide
example : pyIntOfChars "1__0".toList = Option.none := by decide
example : format02 3 = "03" := by decide
example : format02 (-5) = "-5" := by decide
example : format02 123 = "123" := by decide
example : splitOnDot "7.a.b".toList = [['7'], ['a'], ['b']] := by decide
example : splitUnderscoreAux "a_b_c_d".toList 2 [] = [['a'], ['b'], ['c', '_', 'd']] := by decide
example : stemOf "dir/20240115_093000_Model_03.json" = "20240115_093000_Model_03".toList := by decide
example : get_experiment_code [("Experiment.BaseName", PyVal.none), ("Experiment.Number", PyVal.int 3)] = Except.ok "None_03" := by decide
example : get_experiment_code [("Experiment.Number", PyVal.int 3)] = Except.error Err.invalidIdentity := by decide
example : get_experiment_code_ex (PyVal.str "Model") (PyVal.int 3) (PyVal.str "b") (PyVal.int 2) = Except.ok "Model_03.b-02" := by decide
example : experiment_number_and_variation (PyVal.str "7.a.b") = Except.ok (7, some "a") := by decide
example : experiment_number_and_variation (PyVal.str "7.alt") = Except.ok (7, some "alt") := by decide
example : experiment_number_and_variation (PyVal.int 7) = Except.ok (7, Option.none) := by decide
example : experiment_code_and_timestamp "20240115_093000_Model_03.json" = Except.ok ("Model_03", ⟨2024, 1, 15, 9, 30, 0⟩) := by decide
example : (MLExperimentConfig.mk [("Experiment.BaseName", PyVal.str "M"), ("Experiment.Number", PyVal.int 1)] Option.none).assign [("DatasetName", PyVal.str "D")] = Except.ok (MLExperimentConfig.mk [("Experiment.BaseName", PyVal.str "M_D"), ("Experiment.Number", PyVal.int 1), ("DatasetName", PyVal.str "D")] Option.none) := by decide
example : (MLExperimentConfig.mk [("Experiment.BaseName", PyVal.none)] Option.none).assign [("DatasetName", PyVal.str "D")] = Except.error Err.typeMismatch := by decide
example : (MLExperimentConfig.mk [("Experiment.BaseName", PyVal.none)] Option.none).assign [("Experiment.BaseName", PyVal.str "X"), ("DatasetName", PyVal.str "D")] = Except.ok (MLExperimentConfig.mk [("Experiment.BaseName", PyVal.str "X_D"), ("DatasetName", PyVal.str "D")] Option.none) := by decide
example : MLExperimentConfig.init (fun _ => Option.none) Option.none PyVal.none (PyVal.int 3) PyVal.none PyVal.none Option.none = Except.ok (MLExperimentConfig.mk [("Experiment.BaseName", PyVal.none), ("Experiment.Number", PyVal.int 3)] Option.none) := by decide
